import Mathlib

/-
Verification of the channel grouping and saved-pattern service of the
slack-regex repository (src/src/services/channelGrouper.js, with the
serverless variant in src/lib/channelGrouper.js sharing the same logic).

The service is embedded shallowly:
- the host (V8) regular-expression engine is a parameter: compilation of a
  pattern and flags either yields a boolean test predicate on strings or an
  error message (a SyntaxError message in the host);
- the upstream Slack conversations.list endpoint is a parameter: a function
  from a request (types, limit, cursor) to an optional response, where none
  models an upstream failure (network, auth, rate limit);
- a JavaScript Map is modelled as an association list that preserves
  insertion order: set on an existing key overwrites in place, set on a new
  key appends, delete removes the entry;
- new Date() timestamps are modelled as a Nat passed explicitly to the
  operation that reads the clock;
- thrown errors are modelled with Except; the error taxonomy of the spec
  (InvalidPattern, SourceUnavailable, GroupNotFound) corresponds to the
  messages thrown by the code ("Invalid regex pattern provided",
  "Failed to group channels", and "Group not found").
-/

namespace SlackRegex

/-- Character-list test that the first list is a prefix of the second,
used to build a kernel-computable substring test. -/
def listHasPre : List Char → List Char → Bool
  | [], _ => true
  | _ :: _, [] => false
  | a :: as, b :: bs => a == b && listHasPre as bs

/-- Character-list test that needle occurs contiguously inside the second list. -/
def listHasSub (needle : List Char) : List Char → Bool
  | [] => listHasPre needle []
  | b :: bs => listHasPre needle (b :: bs) || listHasSub needle bs

/-- Substring containment on strings, modelling JavaScript
String.prototype.includes as used in the error handler of
groupChannelsByRegex. -/
def strContains (s sub : String) : Bool := listHasSub sub.toList s.toList

/-- Prefix test on strings, used only to build concrete sample regex
engines for witnesses. -/
def strStarts (s pre : String) : Bool := listHasPre pre.toList s.toList

/-- Channel record as normalized by getAllChannels: id, name, is_private,
is_archived, topic and purpose, where missing topic and purpose have been
defaulted to the empty string. -/
structure Channel where
  id : String
  name : String
  is_private : Bool
  is_archived : Bool
  topic : String
  purpose : String
deriving DecidableEq, Repr

/-- Raw channel record as returned by the upstream conversations.list call,
before normalization: topic and purpose values may be absent
(channel.topic?.value and channel.purpose?.value in the source). -/
structure RawChannel where
  id : String
  name : String
  is_private : Bool
  is_archived : Bool
  topic : Option String
  purpose : Option String
deriving DecidableEq, Repr

/-- Normalization performed inside getAllChannels on each raw record:
missing topic and purpose default to the empty string
(channel.topic?.value || "" in the source). -/
def normalizeChannel (c : RawChannel) : Channel :=
  ⟨c.id, c.name, c.is_private, c.is_archived, c.topic.getD "", c.purpose.getD ""⟩

/-- Request shape of the upstream conversations.list call: the types
string, the page size limit, and an optional pagination cursor. -/
structure ListRequest where
  types : String
  limit : Nat
  cursor : Option String
deriving DecidableEq, Repr

/-- Response shape of the upstream conversations.list call: a page of raw
channels and the response_metadata.next_cursor, which is some value exactly
when the upstream has further pages. -/
structure ListResponse where
  channels : List RawChannel
  next_cursor : Option String
deriving DecidableEq, Repr

/-- Upstream Slack API model: a function from a conversations.list request
to an optional response; none models an upstream error (network, auth,
rate limit), in which case the source throws. -/
abbrev SlackSource := ListRequest → Option ListResponse

/-- Types argument the source passes to conversations.list: both public and
private channel kinds. -/
def conversationsListTypes : String := "public_channel,private_channel"

/-- Page size limit the source passes to conversations.list. -/
def conversationsListLimit : Nat := 1000

/-- Embedding of getAllChannels: issues a single conversations.list request
with types public_channel,private_channel, limit 1000 and no cursor, and
maps the returned page through normalizeChannel. On upstream failure it
throws the message "Failed to fetch channels". Note the source code sends
exactly one request and never reads next_cursor. -/
def getAllChannels (source : SlackSource) : Except String (List Channel) :=
  match source ⟨conversationsListTypes, conversationsListLimit, none⟩ with
  | none => .error "Failed to fetch channels"
  | some resp => .ok (resp.channels.map normalizeChannel)

/-- Host regular-expression engine model: compiling a pattern with flags
(new RegExp(pattern, flags)) either yields a boolean test predicate on
strings (regex.test) or throws a SyntaxError whose message is returned in
the error case. -/
abbrev RegexEngine := String → String → Except String (String → Bool)

/-- Substring the catch block of groupChannelsByRegex looks for in the
message of a caught error to classify it as a pattern-compilation failure
(error.message.includes("Invalid regular expression")). -/
def compileErrorMarker : String := "Invalid regular expression"

/-- Matching rule applied to one channel inside groupChannelsByRegex: the
compiled regex tests true against the name, the topic, or the purpose. -/
def channelMatches (test : String → Bool) (ch : Channel) : Bool :=
  test ch.name || test ch.topic || test ch.purpose

/-- Error taxonomy of the service, corresponding to the distinct messages
thrown by the source: invalidPattern is "Invalid regex pattern provided",
sourceUnavailable is the generic "Failed to group channels" rethrow, and
groupNotFound carries the missing group name. -/
inductive GroupError where
  | invalidPattern
  | sourceUnavailable
  | groupNotFound (groupName : String)
deriving DecidableEq, Repr

/-- Result of a grouping operation, mirroring the object literal returned by
groupChannelsByRegex. -/
structure MatchResult where
  pattern : String
  flags : String
  totalChannels : Nat
  matchedChannels : Nat
  channels : List Channel
deriving DecidableEq, Repr

/-- Embedding of groupChannelsByRegex: compile the regex first, then fetch
all channels, then filter by channelMatches and build the MatchResult. A
compilation error is rethrown as invalidPattern exactly when its message
contains compileErrorMarker, otherwise the generic catch maps it, like a
fetch failure, to sourceUnavailable ("Failed to group channels"); the fetch
failure message "Failed to fetch channels" never contains the marker. -/
def groupChannelsByRegex (compile : RegexEngine) (source : SlackSource)
    (pattern : String) (flags : String) : Except GroupError MatchResult :=
  match compile pattern flags with
  | .error msg =>
      if strContains msg compileErrorMarker then .error .invalidPattern
      else .error .sourceUnavailable
  | .ok test =>
      match getAllChannels source with
      | .error _ => .error .sourceUnavailable
      | .ok channels =>
          let matched := channels.filter (channelMatches test)
          .ok ⟨pattern, flags, channels.length, matched.length, matched⟩

/-- Saved group configuration as stored by saveGroup: pattern, flags, and
the creation timestamp (new Date() modelled as a Nat). -/
structure GroupConfig where
  pattern : String
  flags : String
  createdAt : Nat
deriving DecidableEq, Repr

/-- Membership test of a JavaScript Map modelled as an association list
(Map.prototype.has). -/
def mapHas {β : Type} (m : List (String × β)) (k : String) : Bool :=
  m.any (fun p => p.1 == k)

/-- Lookup in a JavaScript Map modelled as an association list
(Map.prototype.get). -/
def mapGet {β : Type} (m : List (String × β)) (k : String) : Option β :=
  (m.find? (fun p => p.1 == k)).map Prod.snd

/-- Update of a JavaScript Map modelled as an association list
(Map.prototype.set): overwrite in place when the key is present, append
otherwise, preserving insertion order. -/
def mapSet {β : Type} (m : List (String × β)) (k : String) (v : β) :
    List (String × β) :=
  if mapHas m k then m.map (fun p => if p.1 == k then (k, v) else p)
  else m ++ [(k, v)]

/-- Removal from a JavaScript Map modelled as an association list
(Map.prototype.delete, ignoring its boolean result). -/
def mapDelete {β : Type} (m : List (String × β)) (k : String) :
    List (String × β) :=
  m.filter (fun p => !(p.1 == k))

/-- Per-user group registry: group name to configuration. -/
abbrev UserGroups := List (String × GroupConfig)

/-- Whole group store: user id to that user per-name registry
(this.groups in the source). -/
abbrev GroupStore := List (String × UserGroups)

/-- Embedding of saveGroup: read the user map (or a fresh empty one), set
the group under its name with a fresh createdAt timestamp, write the user
map back, and return true. No validation of the pattern happens here. -/
def saveGroup (st : GroupStore) (now : Nat)
    (userId groupName pattern flags : String) : Bool × GroupStore :=
  let userGroups := (mapGet st userId).getD []
  let userGroups := mapSet userGroups groupName ⟨pattern, flags, now⟩
  (true, mapSet st userId userGroups)

/-- Saved group as listed by getUserGroups: the name together with the
stored configuration. -/
structure SavedGroup where
  name : String
  pattern : String
  flags : String
  createdAt : Nat
deriving DecidableEq, Repr

/-- Embedding of getUserGroups: list the entries of the user map (or of a
fresh empty one when the user is absent) in insertion order. -/
def getUserGroups (st : GroupStore) (userId : String) : List SavedGroup :=
  ((mapGet st userId).getD []).map
    (fun p => ⟨p.1, p.2.pattern, p.2.flags, p.2.createdAt⟩)

/-- Embedding of deleteGroup: return false when the user has no map or the
map lacks the name; otherwise remove the group, remove the whole user entry
when its map became empty, and return true. -/
def deleteGroup (st : GroupStore) (userId groupName : String) :
    Bool × GroupStore :=
  match mapGet st userId with
  | none => (false, st)
  | some userGroups =>
      if mapHas userGroups groupName then
        let ug := mapDelete userGroups groupName
        if ug.length = 0 then (true, mapDelete st userId)
        else (true, mapSet st userId ug)
      else (false, st)

/-- Embedding of applySavedGroup: fail with groupNotFound when the user has
no map or the map lacks the name; otherwise delegate to
groupChannelsByRegex with the stored pattern and flags. -/
def applySavedGroup (compile : RegexEngine) (source : SlackSource)
    (st : GroupStore) (userId groupName : String) :
    Except GroupError MatchResult :=
  match mapGet st userId with
  | none => .error (.groupNotFound groupName)
  | some userGroups =>
      match mapGet userGroups groupName with
      | none => .error (.groupNotFound groupName)
      | some config => groupChannelsByRegex compile source config.pattern config.flags

/-- Boolean observation: the store has a group of the given name for the
given user. -/
def hasGroup (st : GroupStore) (userId groupName : String) : Bool :=
  match mapGet st userId with
  | none => false
  | some userGroups => mapHas userGroups groupName

/-- Slack Block Kit block as built by formatChannelsForSlack: a mrkdwn
section, a divider, or a context element holding one mrkdwn text. -/
inductive SlackBlock where
  | sectionBlock (text : String)
  | dividerBlock
  | contextBlock (text : String)
deriving DecidableEq, Repr

/-- Payload returned by formatChannelsForSlack: fallback text plus blocks. -/
structure DisplayPayload where
  text : String
  blocks : List SlackBlock
deriving DecidableEq, Repr

/-- Bullet line rendered for a public channel inside the public block. -/
def publicChannelLine (ch : Channel) : String :=
  "• <#" ++ ch.id ++ "|" ++ ch.name ++ ">" ++
    (if ch.is_archived then " (archived)" else "")

/-- Bullet line rendered for a private channel inside the private block. -/
def privateChannelLine (ch : Channel) : String :=
  "• #" ++ ch.name ++ (if ch.is_archived then " (archived)" else "")

/-- Header section block of formatChannelsForSlack. -/
def headerBlock (matchedChannels : Nat) (pattern : String) : SlackBlock :=
  .sectionBlock ("*Found " ++ toString matchedChannels ++
    " channels matching pattern:* `" ++ pattern ++ "`")

/-- Public channels section block of formatChannelsForSlack. -/
def publicChannelsBlock (chs : List Channel) : SlackBlock :=
  .sectionBlock ("*Public Channels (" ++ toString chs.length ++ "):*\n" ++
    String.intercalate "\n" (chs.map publicChannelLine))

/-- Private channels section block of formatChannelsForSlack. -/
def privateChannelsBlock (chs : List Channel) : SlackBlock :=
  .sectionBlock ("*Private Channels (" ++ toString chs.length ++ "):*\n" ++
    String.intercalate "\n" (chs.map privateChannelLine))

/-- Truncation context block of formatChannelsForSlack, reporting the limit
and the number of omitted channels (channels.length - limit). -/
def truncationBlock (limit omitted : Nat) : SlackBlock :=
  .contextBlock ("_Showing first " ++ toString limit ++ " channels. " ++
    toString omitted ++ " more channels match this pattern._")

/-- Embedding of formatChannelsForSlack (default limit in the source is
20, passed explicitly here): on zero matches return the no-match payload
with empty blocks; otherwise take the first limit channels, partition into
public and private, render each partition block only when non-empty, and
append a truncation context block exactly when more channels matched than
are displayed. -/
def formatChannelsForSlack (groupResult : MatchResult) (limit : Nat) :
    DisplayPayload :=
  if groupResult.matchedChannels = 0 then
    ⟨"No channels found matching pattern: `" ++ groupResult.pattern ++ "`", []⟩
  else
    let displayChannels := groupResult.channels.take limit
    let hasMore := decide (groupResult.channels.length > limit)
    let publicChannels := displayChannels.filter (fun ch => !ch.is_private)
    let privateChannels := displayChannels.filter (fun ch => ch.is_private)
    let blocks :=
      [headerBlock groupResult.matchedChannels groupResult.pattern,
       SlackBlock.dividerBlock]
      ++ (if publicChannels.length > 0 then [publicChannelsBlock publicChannels] else [])
      ++ (if privateChannels.length > 0 then [privateChannelsBlock privateChannels] else [])
      ++ (if hasMore then [truncationBlock limit (groupResult.channels.length - limit)] else [])
    ⟨"Found " ++ toString groupResult.matchedChannels ++
      " channels matching pattern: " ++ groupResult.pattern, blocks⟩

/-- Modelled from the spec: the Channel Source Adapter algorithm of section
4.1, which requests channels in cursor-based pages, accumulating into one
sequence and continuing until the upstream reports no further pages. The
fuel argument bounds the recursion; it is absent from the repository, whose
getAllChannels issues exactly one request and ignores next_cursor. -/
def specFetchAllChannels (source : SlackSource) :
    Nat → Option String → Option (List Channel)
  | 0, _ => none
  | fuel + 1, cursor =>
      match source ⟨conversationsListTypes, conversationsListLimit, cursor⟩ with
      | none => none
      | some resp =>
          match resp.next_cursor with
          | none => some (resp.channels.map normalizeChannel)
          | some next =>
              match specFetchAllChannels source fuel (some next) with
              | none => none
              | some rest => some (resp.channels.map normalizeChannel ++ rest)

/-- Sample regex engine for witnesses, modelling the host engine at a few
concrete points: the pattern "(" fails to compile with the V8 SyntaxError
message, and any other pattern compiles to a prefix test. -/
def sampleEngine : RegexEngine := fun pattern _flags =>
  if pattern == "(" then
    .error "Invalid regular expression: /(/: Unterminated group"
  else
    .ok (fun s => strStarts s pattern)

/-- Sample single-page upstream for witnesses: three channels, no further
pages. -/
def sampleSource : SlackSource := fun _req =>
  some ⟨[⟨"C1", "dev-team", false, false, some "build things", none⟩,
         ⟨"C2", "marketing", false, false, none, none⟩,
         ⟨"C3", "dev-ops", true, true, some "archive", none⟩], none⟩

/-- Upstream that always fails, used to show that pattern validation
happens before any fetch is consulted. -/
def failingSource : SlackSource := fun _req => none

/-- Two-page upstream: the first page carries one channel and a non-empty
next_cursor, the second page carries another channel and no cursor. -/
def twoPageSource : SlackSource := fun req =>
  match req.cursor with
  | none => some ⟨[⟨"C1", "general", false, false, none, none⟩], some "cur1"⟩
  | some c =>
      if c == "cur1" then some ⟨[⟨"C2", "random", false, false, none, none⟩], none⟩
      else none

/-- Invariant of the group store: every user present in the store has a
non-empty per-name registry (no leftover empty containers). -/
def storeWF (st : GroupStore) : Prop := ∀ q ∈ st, q.2 ≠ []

/-- Channel list produced by getAllChannels on sampleSource, after
normalization of missing topic and purpose to the empty string. -/
def sampleFetched : List Channel :=
  [⟨"C1", "dev-team", false, false, "build things", ""⟩,
   ⟨"C2", "marketing", false, false, "", ""⟩,
   ⟨"C3", "dev-ops", true, true, "archive", ""⟩]

/-- Well-formed three-channel MatchResult used to exercise the display
formatter at a small display limit. -/
def sampleMatchResult : MatchResult := ⟨"dev", "i", 3, 3, sampleFetched⟩

theorem mapGet_update_self {β : Type} (m : List (String × β)) (k : String) (v : β)
    (h : mapHas m k = true) :
    mapGet (m.map (fun p => if p.1 == k then (k, v) else p)) k = some v := by
  induction m with
  | nil => simp [mapHas] at h
  | cons q m ih =>
      cases hq : q.1 == k with
      | true => simp [mapGet, List.find?, hq]
      | false =>
          simp only [mapHas, List.any_cons, hq, Bool.false_or] at h
          simpa [mapGet, List.find?, hq] using ih h

theorem mapGet_append_single {β : Type} (m : List (String × β)) (k : String) (v : β)
    (h : mapHas m k = false) :
    mapGet (m ++ [(k, v)]) k = some v := by
  induction m with
  | nil => simp [mapGet, List.find?]
  | cons q m ih =>
      simp only [mapHas, List.any_cons, Bool.or_eq_false_iff] at h
      simpa [mapGet, List.find?, h.1] using ih h.2

theorem mapGet_mapSet_self {β : Type} (m : List (String × β)) (k : String) (v : β) :
    mapGet (mapSet m k v) k = some v := by
  unfold mapSet
  cases h : mapHas m k with
  | true => simpa using mapGet_update_self m k v h
  | false => simpa using mapGet_append_single m k v h

theorem mapGet_update_ne {β : Type} (m : List (String × β)) (k k' : String) (v : β)
    (h : k ≠ k') :
    mapGet (m.map (fun p => if p.1 == k then (k, v) else p)) k' = mapGet m k' := by
  induction m with
  | nil => simp
  | cons q m ih =>
      cases hq : q.1 == k with
      | true =>
          have hqk : q.1 = k := by simpa using hq
          have hk' : (k == k') = false := by simpa using h
          have hq' : (q.1 == k') = false := by simp [hqk, hk']
          simpa [mapGet, List.find?, hq, hk', hq'] using ih
      | false =>
          cases hq' : q.1 == k' with
          | true => simp [mapGet, List.find?, hq, hq']
          | false => simpa [mapGet, List.find?, hq, hq'] using ih

theorem mapGet_append_ne {β : Type} (m : List (String × β)) (k k' : String) (v : β)
    (h : k ≠ k') :
    mapGet (m ++ [(k, v)]) k' = mapGet m k' := by
  have hk' : (k == k') = false := by simpa using h
  induction m with
  | nil => simp [mapGet, List.find?, hk']
  | cons q m ih =>
      cases hq' : q.1 == k' with
      | true => simp [mapGet, List.find?, hq']
      | false => simpa [mapGet, List.find?, hq'] using ih

theorem mapGet_mapSet_ne {β : Type} (m : List (String × β)) (k k' : String) (v : β)
    (h : k ≠ k') :
    mapGet (mapSet m k v) k' = mapGet m k' := by
  unfold mapSet
  cases hm : mapHas m k with
  | true => simpa using mapGet_update_ne m k k' v h
  | false => simpa using mapGet_append_ne m k k' v h

theorem mapGet_mapDelete_self {β : Type} (m : List (String × β)) (k : String) :
    mapGet (mapDelete m k) k = none := by
  induction m with
  | nil => simp [mapDelete, mapGet]
  | cons q m ih =>
      cases hq : q.1 == k with
      | true => simpa [mapDelete, List.filter, hq] using ih
      | false =>
          simp only [mapDelete, List.filter, hq] at ih ⊢
          simp only [mapGet, List.find?, hq] at ih ⊢
          exact ih

theorem mapGet_mapDelete_ne {β : Type} (m : List (String × β)) (k k' : String)
    (h : k ≠ k') :
    mapGet (mapDelete m k) k' = mapGet m k' := by
  induction m with
  | nil => rfl
  | cons q m ih =>
      cases hq : q.1 == k with
      | true =>
          have hqk : q.1 = k := by simpa using hq
          have hq' : (q.1 == k') = false := by
            simpa [hqk] using h
          simpa [mapDelete, mapGet, List.filter, List.find?, hq, hq'] using ih
      | false =>
          cases hq' : q.1 == k' with
          | true => simp [mapDelete, mapGet, List.filter, List.find?, hq, hq']
          | false => simpa [mapDelete, mapGet, List.filter, List.find?, hq, hq'] using ih

theorem mapHas_mapDelete_self {β : Type} (m : List (String × β)) (k : String) :
    mapHas (mapDelete m k) k = false := by
  induction m with
  | nil => simp [mapDelete, mapHas]
  | cons q m ih =>
      cases hq : q.1 == k with
      | true => simpa [mapDelete, List.filter, hq] using ih
      | false =>
          simp only [mapDelete, List.filter, hq, Bool.not_false] at ih ⊢
          simp only [mapHas, List.any_cons, hq, Bool.false_or] at ih ⊢
          exact ih

theorem mapSet_ne_nil {β : Type} (m : List (String × β)) (k : String) (v : β) :
    mapSet m k v ≠ [] := by
  unfold mapSet
  split
  next hh =>
    intro hc
    rw [List.map_eq_nil_iff] at hc
    subst hc
    simp [mapHas] at hh
  next => simp

theorem mem_mapSet {β : Type} (m : List (String × β)) (k : String) (v : β)
    (q : String × β) (hq : q ∈ mapSet m k v) : q = (k, v) ∨ q ∈ m := by
  unfold mapSet at hq
  split at hq
  · rcases List.mem_map.mp hq with ⟨p, hp, hpq⟩
    by_cases hpk : (p.1 == k) = true
    · left
      rw [← hpq]
      simp [hpk]
    · right
      rw [← hpq]
      simpa [hpk] using hp
  · rcases List.mem_append.mp hq with h1 | h1
    · right; exact h1
    · left; simpa using h1

theorem mapHas_of_mapGet {β : Type} (m : List (String × β)) (k : String) (v : β)
    (h : mapGet m k = some v) : mapHas m k = true := by
  induction m with
  | nil => simp [mapGet] at h
  | cons q m ih =>
      cases hq : q.1 == k with
      | true => simp [mapHas, List.any_cons, hq]
      | false =>
          simp only [mapGet, List.find?, hq] at h ih
          simp only [mapHas, List.any_cons, hq, Bool.false_or]
          exact ih h

theorem mapHas_mapSet_self {β : Type} (m : List (String × β)) (k : String) (v : β) :
    mapHas (mapSet m k v) k = true :=
  mapHas_of_mapGet _ k v (mapGet_mapSet_self m k v)

theorem mapSet_keys_of_has {β : Type} (m : List (String × β)) (k : String) (v : β)
    (h : mapHas m k = true) :
    (mapSet m k v).map Prod.fst = m.map Prod.fst := by
  unfold mapSet
  rw [if_pos h]
  rw [List.map_map]
  refine List.map_congr_left ?_
  intro p _
  cases hp : p.1 == k with
  | true =>
      have : p.1 = k := by simpa using hp
      simp [Function.comp, hp, this]
  | false => simp [Function.comp, hp]

theorem saveGroup_lookup (st : GroupStore) (now : Nat) (u g p f : String) :
    mapGet ((mapGet (saveGroup st now u g p f).2 u).getD []) g =
      some ⟨p, f, now⟩ := by
  show mapGet ((mapGet (mapSet st u
      (mapSet ((mapGet st u).getD []) g ⟨p, f, now⟩)) u).getD []) g = _
  rw [mapGet_mapSet_self]
  exact mapGet_mapSet_self _ _ _

theorem getUserGroups_names (st : GroupStore) (u : String) :
    (getUserGroups st u).map SavedGroup.name =
      ((mapGet st u).getD []).map Prod.fst := by
  simp only [getUserGroups, List.map_map]
  rfl

theorem saveGroup_names (st : GroupStore) (now : Nat) (u g p f : String)
    (h : hasGroup st u g = true) :
    (getUserGroups (saveGroup st now u g p f).2 u).map SavedGroup.name =
      (getUserGroups st u).map SavedGroup.name := by
  rw [getUserGroups_names, getUserGroups_names]
  unfold hasGroup at h
  cases hg : mapGet st u with
  | none => rw [hg] at h; simp at h
  | some ug =>
      rw [hg] at h
      have h1 : mapGet (saveGroup st now u g p f).2 u
          = some (mapSet ((mapGet st u).getD []) g ⟨p, f, now⟩) :=
        mapGet_mapSet_self st u _
      rw [h1, hg]
      exact mapSet_keys_of_has _ g _ (by simpa [hg] using h)

/-- C1: for every pattern and flags that compile and every fetched channel
sequence, groupChannelsByRegex succeeds with a MatchResult whose channels
field is exactly the in-order filter (hence a subsequence, with no
re-sorting) of the fetched channels by the disjunctive test on name, topic
and purpose, whose totalChannels is the size of the fetched set, and whose
matchedChannels equals the length of channels and is at most totalChannels. -/
theorem groupChannelsByRegex_filter_spec
    (compile : RegexEngine) (source : SlackSource) (pattern flags : String)
    (test : String → Bool) (channels : List Channel)
    (hc : compile pattern flags = .ok test)
    (hs : getAllChannels source = .ok channels) :
    ∃ r : MatchResult,
      groupChannelsByRegex compile source pattern flags = .ok r ∧
      r.channels = channels.filter (channelMatches test) ∧
      r.channels.Sublist channels ∧
      (∀ c : Channel, c ∈ r.channels ↔
        c ∈ channels ∧ (test c.name || test c.topic || test c.purpose) = true) ∧
      r.totalChannels = channels.length ∧
      r.matchedChannels = r.channels.length ∧
      r.matchedChannels ≤ r.totalChannels := by
  refine ⟨⟨pattern, flags, channels.length,
    (channels.filter (channelMatches test)).length,
    channels.filter (channelMatches test)⟩, ?_, rfl, ?_, ?_, rfl, rfl, ?_⟩
  · simp [groupChannelsByRegex, hc, hs]
  · exact List.filter_sublist _
  · intro c
    simp [List.mem_filter, channelMatches]
  · exact List.length_filter_le _ _

/-- Witness for C1 at the concrete sample engine, sample source and the
pattern dev: both hypotheses hold by computation. -/
theorem groupChannelsByRegex_filter_spec_witness :
    ∃ r : MatchResult,
      groupChannelsByRegex sampleEngine sampleSource "dev" "i" = .ok r ∧
      r.channels = sampleFetched.filter
        (channelMatches (fun s => strStarts s "dev")) ∧
      r.channels.Sublist sampleFetched ∧
      (∀ c : Channel, c ∈ r.channels ↔
        c ∈ sampleFetched ∧
          (strStarts c.name "dev" || strStarts c.topic "dev" ||
            strStarts c.purpose "dev") = true) ∧
      r.totalChannels = sampleFetched.length ∧
      r.matchedChannels = r.channels.length ∧
      r.matchedChannels ≤ r.totalChannels :=
  groupChannelsByRegex_filter_spec sampleEngine sampleSource "dev" "i"
    (fun s => strStarts s "dev") sampleFetched rfl rfl

/-- C2: saving a group and applying it immediately yields exactly the result
of a direct groupChannelsByRegex call with the saved pattern and flags over
the same engine and the same (re-fetched) channel state; no stored result is
replayed. Holds for every store, engine and source. -/
theorem applySavedGroup_after_saveGroup
    (compile : RegexEngine) (source : SlackSource) (st : GroupStore)
    (now : Nat) (u g p f : String) :
    applySavedGroup compile source (saveGroup st now u g p f).2 u g =
      groupChannelsByRegex compile source p f := by
  show applySavedGroup compile source
      (mapSet st u (mapSet ((mapGet st u).getD []) g ⟨p, f, now⟩)) u g =
    groupChannelsByRegex compile source p f
  simp only [applySavedGroup, mapGet_mapSet_self]

/-- C4: whenever compilation of the pattern with the flags fails with a
message containing the V8 marker Invalid regular expression (V8 emits this
for pattern syntax errors, such as an unbalanced parenthesis, and for flag
errors, whose message is Invalid regular expression flags),
groupChannelsByRegex fails with invalidPattern for every source, including a
source that is itself unavailable — so the failure does not depend on the
fetch (validate-before-fetch) — and invalidPattern is a different error from
sourceUnavailable. -/
theorem groupChannelsByRegex_invalidPattern_before_fetch
    (compile : RegexEngine) (pattern flags msg : String)
    (hc : compile pattern flags = .error msg)
    (hm : strContains msg compileErrorMarker = true) :
    (∀ source : SlackSource,
      groupChannelsByRegex compile source pattern flags =
        .error .invalidPattern) ∧
    GroupError.invalidPattern ≠ GroupError.sourceUnavailable := by
  constructor
  · intro source
    simp [groupChannelsByRegex, hc, hm]
  · decide

/-- Witness for C4: the pattern ( with flags i fails to compile with the V8
SyntaxError message, and even over a completely unavailable source the
result is invalidPattern. -/
theorem groupChannelsByRegex_invalidPattern_witness :
    groupChannelsByRegex sampleEngine failingSource "(" "i" =
      .error .invalidPattern :=
  (groupChannelsByRegex_invalidPattern_before_fetch sampleEngine "(" "i"
    "Invalid regular expression: /(/: Unterminated group" rfl (by decide)).1
    failingSource

/-- C5 counterexample: the pattern ( does not compile (sampleEngine returns
the host SyntaxError for it), yet saveGroup does not fail with
InvalidPattern: it returns true and stores the group with the invalid
pattern. -/
theorem saveGroup_stores_invalid_pattern :
    sampleEngine "(" "i" =
      .error "Invalid regular expression: /(/: Unterminated group" ∧
    (saveGroup [] 0 "U1" "g" "(" "i").1 = true ∧
    getUserGroups (saveGroup [] 0 "U1" "g" "(" "i").2 "U1" =
      [⟨"g", "(", "i", 0⟩] := by
  refine ⟨rfl, rfl, ?_⟩
  rfl

/-- C5 (amended): saveGroup performs no validation of the pattern: for every
store, timestamp, user, group name, pattern and flags — valid or not — it
returns true and afterwards the stored configuration under that name for
that user is exactly the supplied pattern, flags and timestamp (overwriting
any previous one). -/
theorem saveGroup_always_succeeds
    (st : GroupStore) (now : Nat) (u g p f : String) :
    (saveGroup st now u g p f).1 = true ∧
    mapGet ((mapGet (saveGroup st now u g p f).2 u).getD []) g =
      some ⟨p, f, now⟩ :=
  ⟨rfl, saveGroup_lookup st now u g p f⟩

/-- C9 counterexample: a group saved at time 0 and re-saved under the same
name at time 5 ends with createdAt equal to 5, not the original 0: createdAt
is reset by every save, not immutable after creation. -/
theorem createdAt_reset_on_resave :
    getUserGroups
      (saveGroup (saveGroup [] 0 "U1" "g" "^dev" "i").2 5 "U1" "g" "^eng" "i").2
      "U1" = [⟨"g", "^eng", "i", 5⟩] ∧ (5 : Nat) ≠ 0 := by
  exact ⟨rfl, by decide⟩

/-- C9 (amended): re-saving a group under the same name for the same user
overwrites it in place — the list of group names for that user is unchanged
— replacing pattern and flags, and sets createdAt to the time of the
re-save: createdAt always reflects the most recent save, not the first
creation. -/
theorem resave_sets_createdAt_to_resave_time
    (st : GroupStore) (t1 t2 : Nat) (u g p1 f1 p2 f2 : String) :
    mapGet ((mapGet (saveGroup (saveGroup st t1 u g p1 f1).2 t2 u g p2 f2).2
        u).getD []) g = some ⟨p2, f2, t2⟩ ∧
    (getUserGroups (saveGroup (saveGroup st t1 u g p1 f1).2 t2 u g p2 f2).2
        u).map SavedGroup.name =
      (getUserGroups (saveGroup st t1 u g p1 f1).2 u).map SavedGroup.name := by
  have h1 : mapGet (saveGroup st t1 u g p1 f1).2 u
      = some (mapSet ((mapGet st u).getD []) g ⟨p1, f1, t1⟩) :=
    mapGet_mapSet_self st u _
  have hg : hasGroup (saveGroup st t1 u g p1 f1).2 u g = true := by
    unfold hasGroup
    rw [h1]
    exact mapHas_mapSet_self _ _ _
  exact ⟨saveGroup_lookup _ t2 u g p2 f2, saveGroup_names _ t2 u g p2 f2 hg⟩

theorem deleteGroup_fst (st : GroupStore) (u g : String) :
    (deleteGroup st u g).1 = hasGroup st u g := by
  unfold deleteGroup hasGroup
  cases hg : mapGet st u with
  | none => rfl
  | some ug =>
      dsimp only
      cases hh : mapHas ug g with
      | true =>
          rw [if_pos rfl]
          split <;> rfl
      | false =>
          rw [if_neg Bool.false_ne_true]

theorem hasGroup_after_deleteGroup (st : GroupStore) (u g : String) :
    hasGroup (deleteGroup st u g).2 u g = false := by
  unfold deleteGroup
  cases hg : mapGet st u with
  | none => simp [hasGroup, hg]
  | some ug =>
      dsimp only
      cases hh : mapHas ug g with
      | false =>
          rw [if_neg Bool.false_ne_true]
          simp [hasGroup, hg, hh]
      | true =>
          rw [if_pos rfl]
          split
          · simp [hasGroup, mapGet_mapDelete_self]
          · simp [hasGroup, mapGet_mapSet_self, mapHas_mapDelete_self]

theorem storeWF_saveGroup (st : GroupStore) (now : Nat) (u g p f : String)
    (hwf : storeWF st) : storeWF (saveGroup st now u g p f).2 := by
  intro q hq
  rcases mem_mapSet _ _ _ q hq with h | h
  · rw [h]
    exact mapSet_ne_nil _ _ _
  · exact hwf q h

theorem storeWF_deleteGroup (st : GroupStore) (u g : String)
    (hwf : storeWF st) : storeWF (deleteGroup st u g).2 := by
  unfold deleteGroup
  cases hg : mapGet st u with
  | none => exact hwf
  | some ug =>
      dsimp only
      cases hh : mapHas ug g with
      | false =>
          rw [if_neg Bool.false_ne_true]
          exact hwf
      | true =>
          rw [if_pos rfl]
          split
          next hl =>
            intro q hq
            exact hwf q (List.mem_of_mem_filter hq)
          next hl =>
            intro q hq
            rcases mem_mapSet _ _ _ q hq with h | h
            · rw [h]
              intro hc
              have hc2 : mapDelete ug g = [] := hc
              exact hl (by rw [hc2]; rfl)
            · exact hwf q h

/-- C6: deleteGroup returns true exactly when the group existed for the
user (false, not an error, otherwise), the group is absent afterwards, and
a second delete of the same user and group always returns false — so for an
existing group the two successive calls return true then false. -/
theorem deleteGroup_true_iff_existed (st : GroupStore) (u g : String) :
    (deleteGroup st u g).1 = hasGroup st u g ∧
    hasGroup (deleteGroup st u g).2 u g = false ∧
    (deleteGroup (deleteGroup st u g).2 u g).1 = false := by
  refine ⟨deleteGroup_fst st u g, hasGroup_after_deleteGroup st u g, ?_⟩
  rw [deleteGroup_fst]
  exact hasGroup_after_deleteGroup st u g

/-- C7: saveGroup and deleteGroup preserve the invariant that every user
present in the store has a non-empty registry, and deleting the only group
of a user removes the user entry entirely, after which getUserGroups
returns the empty sequence. -/
theorem deleteGroup_last_group_reclaims_user
    (st : GroupStore) (now : Nat) (u g p f : String) (c : GroupConfig)
    (hwf : storeWF st)
    (hlast : mapGet st u = some [(g, c)]) :
    storeWF (saveGroup st now u g p f).2 ∧
    storeWF (deleteGroup st u g).2 ∧
    mapGet (deleteGroup st u g).2 u = none ∧
    getUserGroups (deleteGroup st u g).2 u = [] := by
  have h2 : (deleteGroup st u g).2 = mapDelete st u := by
    unfold deleteGroup
    simp [hlast, mapHas, mapDelete]
  refine ⟨storeWF_saveGroup st now u g p f hwf,
    storeWF_deleteGroup st u g hwf, ?_, ?_⟩
  · rw [h2]
    exact mapGet_mapDelete_self st u
  · rw [h2]
    simp [getUserGroups, mapGet_mapDelete_self]

/-- Witness for C7 on a one-user, one-group store. -/
theorem deleteGroup_last_group_reclaims_user_witness :
    storeWF (saveGroup [("U1", [("g", (⟨"^dev", "i", 3⟩ : GroupConfig))])]
      7 "U1" "g" "^dev" "i").2 ∧
    storeWF (deleteGroup [("U1", [("g", ⟨"^dev", "i", 3⟩)])] "U1" "g").2 ∧
    mapGet (deleteGroup [("U1", [("g", ⟨"^dev", "i", 3⟩)])] "U1" "g").2
      "U1" = none ∧
    getUserGroups (deleteGroup [("U1", [("g", ⟨"^dev", "i", 3⟩)])]
      "U1" "g").2 "U1" = [] :=
  deleteGroup_last_group_reclaims_user _ 7 "U1" "g" "^dev" "i" ⟨"^dev", "i", 3⟩
    (by unfold storeWF; decide) rfl

/-- C8: on a well-formed MatchResult with more matched channels than the
display limit, formatChannelsForSlack renders a header and divider, then
only the first limit channels in their existing order, partitioned into a
public block and a private block each rendered only when non-empty, and
appends a truncation notice whose omitted-channel count equals
channels.length - limit. -/
theorem formatChannelsForSlack_truncates
    (r : MatchResult) (limit : Nat)
    (hwf : r.matchedChannels = r.channels.length)
    (hlong : limit < r.channels.length) :
    (formatChannelsForSlack r limit).blocks =
      [headerBlock r.matchedChannels r.pattern, SlackBlock.dividerBlock]
      ++ (if ((r.channels.take limit).filter (fun ch => !ch.is_private)).length > 0
          then [publicChannelsBlock
            ((r.channels.take limit).filter (fun ch => !ch.is_private))]
          else [])
      ++ (if ((r.channels.take limit).filter (fun ch => ch.is_private)).length > 0
          then [privateChannelsBlock
            ((r.channels.take limit).filter (fun ch => ch.is_private))]
          else [])
      ++ [truncationBlock limit (r.channels.length - limit)] := by
  have hnz : ¬ r.matchedChannels = 0 := by
    rw [hwf]
    omega
  have hm : decide (r.channels.length > limit) = true := decide_eq_true hlong
  unfold formatChannelsForSlack
  rw [if_neg hnz]
  simp only [hm, if_true]

/-- Witness for C8: a three-channel well-formed result displayed with limit
1 keeps only the first (public) channel and reports 2 omitted channels. -/
theorem formatChannelsForSlack_truncates_witness :
    sampleMatchResult.matchedChannels = sampleMatchResult.channels.length ∧
    1 < sampleMatchResult.channels.length ∧
    (formatChannelsForSlack sampleMatchResult 1).blocks =
      [headerBlock 3 "dev", SlackBlock.dividerBlock,
       publicChannelsBlock [⟨"C1", "dev-team", false, false, "build things", ""⟩],
       truncationBlock 1 2] :=
  ⟨rfl, by decide,
    (formatChannelsForSlack_truncates sampleMatchResult 1 rfl (by decide)).trans
      (by decide)⟩

/-- C10: a saveGroup or deleteGroup keyed to user u leaves getUserGroups of
any other user v unchanged. -/
theorem groupStore_per_user_isolation
    (st : GroupStore) (now : Nat) (u v g p f g2 : String) (hne : u ≠ v) :
    getUserGroups (saveGroup st now u g p f).2 v = getUserGroups st v ∧
    getUserGroups (deleteGroup st u g2).2 v = getUserGroups st v := by
  constructor
  · show getUserGroups
      (mapSet st u (mapSet ((mapGet st u).getD []) g ⟨p, f, now⟩)) v = _
    simp [getUserGroups, mapGet_mapSet_ne st u v _ hne]
  · unfold deleteGroup
    cases hg : mapGet st u with
    | none => rfl
    | some ug =>
        dsimp only
        cases hh : mapHas ug g2 with
        | false =>
            rw [if_neg Bool.false_ne_true]
        | true =>
            rw [if_pos rfl]
            split
            · simp [getUserGroups, mapGet_mapDelete_ne st u v hne]
            · simp [getUserGroups, mapGet_mapSet_ne st u v _ hne]

/-- Witness for C10 with users U1 and U2. -/
theorem groupStore_per_user_isolation_witness :
    getUserGroups (saveGroup [("U2", [("h", (⟨"x", "i", 1⟩ : GroupConfig))])]
        4 "U1" "g" "^dev" "i").2 "U2" =
      getUserGroups [("U2", [("h", ⟨"x", "i", 1⟩)])] "U2" ∧
    getUserGroups (deleteGroup [("U2", [("h", ⟨"x", "i", 1⟩)])] "U1" "g").2
        "U2" =
      getUserGroups [("U2", [("h", ⟨"x", "i", 1⟩)])] "U2" :=
  groupStore_per_user_isolation _ 4 "U1" "U2" "g" "^dev" "i" "g" (by decide)

/-- C3 at the failing input: over a two-page upstream, getAllChannels —
which issues exactly one conversations.list request (with both public and
private channel kinds) and ignores response_metadata.next_cursor — returns
only the first page, whereas the cursor-accumulating algorithm described by
the spec, specFetchAllChannels, returns the channels of both pages. -/
theorem getAllChannels_returns_first_page_only :
    getAllChannels twoPageSource =
      .ok [⟨"C1", "general", false, false, "", ""⟩] ∧
    specFetchAllChannels twoPageSource 2 none =
      some [⟨"C1", "general", false, false, "", ""⟩,
            ⟨"C2", "random", false, false, "", ""⟩] ∧
    conversationsListTypes = "public_channel,private_channel" :=
  ⟨rfl, rfl, rfl⟩
